import Mathlib

/-!
Shallow embedding of the V8 compilation cache
(`src/codegen/compilation-cache.cc`): the four cache regions (script,
eval-global, eval-contextual, regexp), origin checking (`HasOrigin`),
lazy table allocation, generational regexp rotation, eval sentinel
ageing, hit/miss counters, and the script-and-eval enable flag.

Heap objects are modelled by plain values: strings are Lean strings,
`SharedFunctionInfo` / `FixedArray` payloads carry numeric identities,
and a `CompilationCacheTable` is an association list (the underlying
hash-table mechanics are out of scope per the design; only its keyed
lookup / insert-or-replace / remove / iterate contract matters here).
An "undefined" table slot is `none`; a present table is `some t`.
-/

namespace V8CC

/-- A JavaScript heap value as far as origin checking observes it:
`undefined`, a string, or some other (non-string) object identified by a
numeric id.  `Script::name()` and `ScriptDetails::name_obj` hold such
values. -/
inductive Val where
  | undef : Val
  | str : String → Val
  | obj : Nat → Val
deriving DecidableEq, Repr

/-- `IsString` on a heap value. -/
def Val.isString : Val → Bool
  | .str _ => true
  | _ => false

/-- `String::Equals` on two heap values both known to be strings
(content equality); `false` when either is not a string. -/
def Val.stringEquals : Val → Val → Bool
  | .str a, .str b => a == b
  | _, _ => false

/-- The provenance data of a `Script` object that `HasOrigin` reads:
name, line/column offset, origin option flags, host-defined options
(a `v8::PrimitiveArray`; elements modelled by their identities, with
`StrictEquals` as equality on them). -/
structure Script where
  name : Val
  line_offset : Int
  column_offset : Int
  origin_options : Nat
  host_defined_options : List Nat
deriving DecidableEq, Repr

/-- A `SharedFunctionInfo`: the cached artifact.  Carries a numeric
identity, a back-reference to its originating script's provenance, and
the staleness signal (`HasBytecodeArray` / `GetBytecodeArray().IsOld()`)
that sweep-based ageing reads. -/
structure SharedFunctionInfo where
  id : Nat
  script : Script
  hasBytecodeArray : Bool
  bytecodeIsOld : Bool
deriving DecidableEq, Repr

/-- A `ScriptDetails` request descriptor: optional name object, offsets,
origin option flags, optional host-defined options. -/
structure ScriptDetails where
  name_obj : Option Val
  line_offset : Int
  column_offset : Int
  origin_options : Nat
  host_defined_options : Option (List Nat)
deriving DecidableEq, Repr

/-- `StrictEquals` pairwise over two primitive arrays of equal length
(the loop at the end of `HasOrigin`). -/
def strictEqualsAll (a b : List Nat) : Bool :=
  (a.zip b).all (fun p => p.1 == p.2)

/-- `HasOrigin` (compilation-cache.cc, anonymous namespace): does the
candidate artifact's script provenance match the request's
`ScriptDetails`?  Checks in source order: absent request name matches
only an undefined script name; line offset; column offset; both names
string-typed; origin option flags equal; name content equality; host
defined options (absent request options default to the empty array)
equal length and pairwise `StrictEquals`. -/
def hasOrigin (function_info : SharedFunctionInfo)
    (script_details : ScriptDetails) : Bool :=
  let script := function_info.script
  match script_details.name_obj with
  | none => script.name == Val.undef
  | some name =>
    if script_details.line_offset != script.line_offset then false
    else if script_details.column_offset != script.column_offset then false
    else if !(name.isString && script.name.isString) then false
    else if script_details.origin_options != script.origin_options then false
    else if !(name.stringEquals script.name) then false
    else
      let host_defined_options := script_details.host_defined_options.getD []
      let script_options := script.host_defined_options
      host_defined_options.length == script_options.length &&
        strictEqualsAll host_defined_options script_options

/-- Modelled from the spec (§4.2 OriginValidator), for comparison with
`hasOrigin`: a match holds exactly when, if the request has no name, the
candidate name is absent; and otherwise the line and column offsets are
exactly equal, the origin-flag bitsets are exactly equal, both names are
string-typed and content-equal, and the host_defined_options sequences
have equal length with every pair of corresponding elements equal. -/
def matchesSpec (function_info : SharedFunctionInfo)
    (script_details : ScriptDetails) : Bool :=
  let script := function_info.script
  match script_details.name_obj with
  | none => script.name == Val.undef
  | some name =>
    (script_details.line_offset == script.line_offset) &&
    (script_details.column_offset == script.column_offset) &&
    (script_details.origin_options == script.origin_options) &&
    name.isString && script.name.isString &&
    name.stringEquals script.name &&
    ((script_details.host_defined_options.getD []).length ==
      script.host_defined_options.length) &&
    strictEqualsAll (script_details.host_defined_options.getD [])
      script.host_defined_options

/-- `LanguageMode`. -/
inductive LanguageMode where
  | sloppy : LanguageMode
  | strict : LanguageMode
deriving DecidableEq, Repr

/-- `CompilationCacheTable` keyed lookup: first entry with the given
key, if any (the table holds at most one entry per key). -/
def tblLookup {α β : Type} [DecidableEq α] (t : List (α × β)) (k : α) :
    Option β :=
  match t with
  | [] => none
  | (k', v) :: rest => if k' = k then some v else tblLookup rest k

/-- `CompilationCacheTable` insert-or-replace: an insertion on an
existing key overwrites the value in place, otherwise the entry is
added. -/
def tblInsert {α β : Type} [DecidableEq α] (t : List (α × β)) (k : α)
    (v : β) : List (α × β) :=
  match t with
  | [] => [(k, v)]
  | (k', v') :: rest =>
    if k' = k then (k, v) :: rest else (k', v') :: tblInsert rest k v

/-- Script-region key: (source text, language mode). -/
abbrev ScriptKey := String × LanguageMode

/-- Script-region table. -/
abbrev ScriptTable := List (ScriptKey × SharedFunctionInfo)

/-- Eval-region key: source text, outer `SharedFunctionInfo` identity,
native context identity, language mode, source position. -/
structure EvalKey where
  source : String
  outer_info : Nat
  native_context : Nat
  language_mode : LanguageMode
  position : Int
deriving DecidableEq, Repr

/-- An entry of an eval-region table: either the countdown sentinel
(keyed by a number — the hash — with a Smi countdown as its value) or a
structural entry (`SharedFunctionInfo` plus optional `FeedbackCell`,
the cell by numeric identity). -/
inductive EvalEntry where
  | sentinel : Nat → Int → EvalEntry
  | entry : EvalKey → SharedFunctionInfo → Option Nat → EvalEntry
deriving DecidableEq, Repr

/-- Eval-region table. -/
abbrev EvalTable := List EvalEntry

/-- `CompilationCacheTable::LookupEval` structural resolution: first
structural entry with the given key (sentinels are never returned). -/
def evalTblLookup (t : EvalTable) (k : EvalKey) :
    Option (SharedFunctionInfo × Option Nat) :=
  match t with
  | [] => none
  | .sentinel _ _ :: rest => evalTblLookup rest k
  | .entry k' info cell :: rest =>
    if k' = k then some (info, cell) else evalTblLookup rest k

/-- `CompilationCacheTable::PutEval` insert-or-replace of a structural
entry (sentinels are left alone; the sentinel is pre-seeded by table
construction, out of scope here). -/
def evalTblPut (t : EvalTable) (k : EvalKey) (info : SharedFunctionInfo)
    (cell : Option Nat) : EvalTable :=
  match t with
  | [] => [.entry k info cell]
  | .sentinel h v :: rest => .sentinel h v :: evalTblPut rest k info cell
  | .entry k' info' cell' :: rest =>
    if k' = k then .entry k info cell :: rest
    else .entry k' info' cell' :: evalTblPut rest k info cell

/-- The staleness signal sweep-based ageing reads off an artifact:
`HasBytecodeArray() && GetBytecodeArray().IsOld()`. -/
def isStale (info : SharedFunctionInfo) : Bool :=
  info.hasBytecodeArray && info.bytecodeIsOld

/-- One entry step of `CompilationCacheEval::Age`: a sentinel's count is
decremented, the entry removed when the decremented count reaches zero
and the decremented value written back otherwise; a structural entry is
removed when its artifact is stale. -/
def evalAgeEntry (e : EvalEntry) : Option EvalEntry :=
  match e with
  | .sentinel h v => if v - 1 = 0 then none else some (.sentinel h (v - 1))
  | .entry k info cell =>
    if isStale info then none else some (.entry k info cell)

/-- `CompilationCacheEval::Age` over a present table: apply
`evalAgeEntry` to every entry. -/
def evalAgeTable (t : EvalTable) : EvalTable :=
  t.filterMap evalAgeEntry

/-- RegExp-region key: (pattern text, flags bitset). -/
structure RegExpKey where
  source : String
  flags : Nat
deriving DecidableEq, Repr

/-- RegExp-region table; the cached compiled data is modelled by its
numeric (`FixedArray`) identity. -/
abbrev RegExpTable := List (RegExpKey × Nat)

/-- The probe loop of `CompilationCacheRegExp::Lookup`: for generation
0, 1, ... call `GetTable(generation)` — which replaces an undefined
slot by a fresh empty table — look the key up, and stop at the first
table holding it.  Returns the updated generation slots together with
the hit generation and data, if any. -/
def regExpProbe (tables : List (Option RegExpTable)) (k : RegExpKey) :
    List (Option RegExpTable) × Option (Nat × Nat) :=
  match tables with
  | [] => ([], none)
  | t :: rest =>
    let tbl := t.getD []
    match tblLookup tbl k with
    | some d => (some tbl :: rest, some (0, d))
    | none =>
      let p := regExpProbe rest k
      (some tbl :: p.1, p.2.map (fun q => (q.1 + 1, q.2)))

/-- `CompilationCacheRegExp::Put` on the generation slots: insert or
replace in generation 0's table, allocating it if absent. -/
def regExpPutTables (tables : List (Option RegExpTable)) (k : RegExpKey)
    (d : Nat) : List (Option RegExpTable) :=
  match tables with
  | [] => []
  | t :: rest => some (tblInsert (t.getD []) k d) :: rest

/-- `CompilationCacheRegExp::Age` on the generation slots: shift each
table reference into the next-older slot (`tables[i] = tables[i - 1]`
for i from the oldest down to 1), then set generation 0 to undefined.
The previous oldest generation's table is dropped unconditionally. -/
def regExpAgeTables (tables : List (Option RegExpTable)) :
    List (Option RegExpTable) :=
  match tables with
  | [] => []
  | _ :: _ => none :: tables.dropLast

/-- A `Context` as the eval router observes it: identity, whether it is
a native context, and the identity of its native context. -/
structure Context where
  id : Nat
  isNativeCtx : Bool
  native_context : Nat
deriving DecidableEq, Repr

/-- The `CompilationCache` state: one table slot per script/eval region,
the regexp generation slots, the script-and-eval enable flag, and the
isolate's hit/miss counters. -/
structure CompilationCache where
  script_ : Option ScriptTable
  eval_global_ : Option EvalTable
  eval_contextual_ : Option EvalTable
  reg_exp_ : List (Option RegExpTable)
  enabled_script_and_eval_ : Bool
  hits : Nat
  misses : Nat
deriving DecidableEq, Repr

namespace CompilationCache

/-- A fresh `CompilationCache` with `n` regexp generations (the
generation count is a compile-time constant `kGenerations ≥ 2` in the
source header, absent from the sampled sources; it is kept as a
parameter here): all table slots undefined, the enable flag true,
counters zero. -/
def init (n : Nat) : CompilationCache :=
  { script_ := none, eval_global_ := none, eval_contextual_ := none,
    reg_exp_ := List.replicate n none,
    enabled_script_and_eval_ := true, hits := 0, misses := 0 }

/-- `CompilationCacheScript::Lookup` resolution on the region's table
slot: structural probe by (source, language mode); on a structural hit
the result stands only if `HasOrigin` passes.  `GetTable` returns a
fresh table for an undefined slot without storing it, so the slot
itself is untouched. -/
def scriptRegionLookup (table : Option ScriptTable) (source : String)
    (script_details : ScriptDetails) (language_mode : LanguageMode) :
    Option SharedFunctionInfo :=
  match tblLookup (table.getD []) (source, language_mode) with
  | some function_info =>
    if hasOrigin function_info script_details then some function_info
    else none
  | none => none

/-- `CompilationCache::LookupScript`: a guaranteed miss (with no
counter change) when the enable flag is false; otherwise the script
region resolves and exactly one of the isolate's hit/miss counters is
incremented. -/
def lookupScript (cache : CompilationCache) (source : String)
    (script_details : ScriptDetails) (language_mode : LanguageMode) :
    Option SharedFunctionInfo × CompilationCache :=
  if !cache.enabled_script_and_eval_ then (none, cache)
  else
    match scriptRegionLookup cache.script_ source script_details
        language_mode with
    | some function_info =>
      (some function_info, { cache with hits := cache.hits + 1 })
    | none => (none, { cache with misses := cache.misses + 1 })

/-- `CompilationCache::PutScript`: a no-op when the enable flag is
false; otherwise insert-or-replace into the script region's table,
allocating it if absent. -/
def putScript (cache : CompilationCache) (source : String)
    (language_mode : LanguageMode)
    (function_info : SharedFunctionInfo) : CompilationCache :=
  if !cache.enabled_script_and_eval_ then cache
  else
    { cache with
      script_ := some (tblInsert (cache.script_.getD [])
        (source, language_mode) function_info) }

/-- `CompilationCache::LookupEval`: a guaranteed miss (with no counter
change) when the enable flag is false; otherwise route to the
eval-global region when the context is a native context (keyed by that
context) and to the eval-contextual region otherwise (keyed by the
context's native context); the chosen region resolves structurally and
increments exactly one of the hit/miss counters. -/
def lookupEval (cache : CompilationCache) (source : String)
    (outer_info : Nat) (context : Context)
    (language_mode : LanguageMode) (position : Int) :
    Option (SharedFunctionInfo × Option Nat) × CompilationCache :=
  if !cache.enabled_script_and_eval_ then (none, cache)
  else if context.isNativeCtx then
    let key : EvalKey :=
      ⟨source, outer_info, context.id, language_mode, position⟩
    match evalTblLookup (cache.eval_global_.getD []) key with
    | some r => (some r, { cache with hits := cache.hits + 1 })
    | none => (none, { cache with misses := cache.misses + 1 })
  else
    let key : EvalKey :=
      ⟨source, outer_info, context.native_context, language_mode, position⟩
    match evalTblLookup (cache.eval_contextual_.getD []) key with
    | some r => (some r, { cache with hits := cache.hits + 1 })
    | none => (none, { cache with misses := cache.misses + 1 })

/-- `CompilationCache::PutEval`: a no-op when the enable flag is false;
otherwise insert-or-replace into the eval-global region (native
context) or the eval-contextual region (otherwise). -/
def putEval (cache : CompilationCache) (source : String)
    (outer_info : Nat) (context : Context)
    (function_info : SharedFunctionInfo) (feedback_cell : Option Nat)
    (language_mode : LanguageMode) (position : Int) : CompilationCache :=
  if !cache.enabled_script_and_eval_ then cache
  else if context.isNativeCtx then
    let key : EvalKey :=
      ⟨source, outer_info, context.id, language_mode, position⟩
    { cache with
      eval_global_ := some (evalTblPut (cache.eval_global_.getD []) key
        function_info feedback_cell) }
  else
    let key : EvalKey :=
      ⟨source, outer_info, context.native_context, language_mode, position⟩
    { cache with
      eval_contextual_ := some (evalTblPut
        (cache.eval_contextual_.getD []) key function_info feedback_cell) }

/-- `CompilationCache::LookupRegExp` (unconditional, no flag check):
probe the generations in order; on a hit in a generation other than 0,
promote the data by a `Put` into generation 0; increment exactly one of
the hit/miss counters. -/
def lookupRegExp (cache : CompilationCache) (k : RegExpKey) :
    Option Nat × CompilationCache :=
  let p := regExpProbe cache.reg_exp_ k
  match p.2 with
  | some gd =>
    let ts := if gd.1 ≠ 0 then regExpPutTables p.1 k gd.2 else p.1
    (some gd.2, { cache with reg_exp_ := ts, hits := cache.hits + 1 })
  | none =>
    (none, { cache with reg_exp_ := p.1, misses := cache.misses + 1 })

/-- `CompilationCache::PutRegExp` (unconditional, no flag check). -/
def putRegExp (cache : CompilationCache) (k : RegExpKey) (d : Nat) :
    CompilationCache :=
  { cache with reg_exp_ := regExpPutTables cache.reg_exp_ k d }

/-- `CompilationCache::Clear`: reset every region's table slot(s) to
undefined. -/
def clear (cache : CompilationCache) : CompilationCache :=
  { cache with
    script_ := none, eval_global_ := none, eval_contextual_ := none,
    reg_exp_ := cache.reg_exp_.map (fun _ => none) }

/-- `CompilationCache::EnableScriptAndEval`. -/
def enableScriptAndEval (cache : CompilationCache) : CompilationCache :=
  { cache with enabled_script_and_eval_ := true }

/-- `CompilationCache::DisableScriptAndEval`: lower the flag, then
`Clear()` — which resets all four regions, the regexp generations
included. -/
def disableScriptAndEval (cache : CompilationCache) : CompilationCache :=
  clear { cache with enabled_script_and_eval_ := false }

/-- `CompilationCacheRegExp::Age` lifted to the cache state. -/
def regExpAge (cache : CompilationCache) : CompilationCache :=
  { cache with reg_exp_ := regExpAgeTables cache.reg_exp_ }

/-- `CompilationCacheEval::Age` on the eval-global region slot (a
no-op on an undefined slot). -/
def evalGlobalAge (cache : CompilationCache) : CompilationCache :=
  { cache with eval_global_ := cache.eval_global_.map evalAgeTable }

end CompilationCache

/-- The counts stored in the sentinel entries of an eval table that are
keyed by the given hash, in table order (a well-formed table has at most
one). -/
def hSentinels (t : EvalTable) (h : Nat) : List Int :=
  t.filterMap (fun e =>
    match e with
    | .sentinel h' v => if h' = h then some v else none
    | .entry _ _ _ => none)

/-- `after` has exactly one of the two counters of `before` incremented,
by exactly one. -/
def incrOneCounter (before after : CompilationCache) : Prop :=
  (after.hits = before.hits + 1 ∧ after.misses = before.misses) ∨
  (after.hits = before.hits ∧ after.misses = before.misses + 1)

/-- `after` has both counters of `before` unchanged. -/
def countersUnchanged (before after : CompilationCache) : Prop :=
  after.hits = before.hits ∧ after.misses = before.misses

/-- Concrete script provenance used in witnesses. -/
def exScriptA : Script := ⟨Val.str "a.js", 0, 0, 0, []⟩

/-- Concrete artifact used in witnesses. -/
def exInfoA : SharedFunctionInfo := ⟨1, exScriptA, false, false⟩

/-- Request details matching `exScriptA`. -/
def exDetailsA : ScriptDetails := ⟨some (Val.str "a.js"), 0, 0, 0, none⟩

/-- Request details of a different script (same text, other name). -/
def exDetailsB : ScriptDetails := ⟨some (Val.str "b.js"), 0, 0, 0, none⟩

/-- Concrete regexp key used in witnesses. -/
def exRegExpKey : RegExpKey := ⟨"ab", 0⟩

/-- A concrete two-generation cache whose generation 1 holds
`exRegExpKey ↦ 7` while generation 0 is absent. -/
def exRegExpCache : CompilationCache :=
  { CompilationCache.init 2 with
    reg_exp_ := [none, some [(exRegExpKey, 7)]] }

end V8CC

open V8CC

theorem tblLookup_tblInsert_self {α β : Type} [DecidableEq α]
    (t : List (α × β)) (k : α) (v : β) :
    tblLookup (tblInsert t k v) k = some v := by
  induction t with
  | nil => simp [tblInsert, tblLookup]
  | cons hd tl ih =>
    obtain ⟨k', v'⟩ := hd
    by_cases h : k' = k <;> simp [tblInsert, tblLookup, h, ih]

theorem regExpProbe_length (tables : List (Option RegExpTable))
    (k : RegExpKey) : (regExpProbe tables k).1.length = tables.length := by
  induction tables with
  | nil => rfl
  | cons t rest ih =>
    simp only [regExpProbe]
    cases h : tblLookup (t.getD []) k <;> simp [h, ih]

theorem regExpProbe_replicate_none (n : Nat) (k : RegExpKey) :
    regExpProbe (List.replicate n none) k =
      (List.replicate n (some ([] : RegExpTable)), none) := by
  induction n with
  | zero => rfl
  | succ m ih =>
    simp [List.replicate_succ, regExpProbe, tblLookup, ih]

theorem map_none_eq_replicate (l : List (Option RegExpTable)) :
    l.map (fun _ => (none : Option RegExpTable)) =
      List.replicate l.length none := by
  induction l with
  | nil => rfl
  | cons a t ih => simp [List.replicate_succ, ih]

/-- C1: the claim as stated is false on the code: `DisableScriptAndEval`
calls `Clear()`, which resets all four regions, the RegExp generations
included; a pattern previously Put into the RegExp region that hits
before `Disable()` no longer hits after it. -/
theorem disable_then_regexp_lookup_misses :
    ((((CompilationCache.init 2).putRegExp exRegExpKey 5).lookupRegExp
        exRegExpKey).1 = some 5) ∧
    ((((CompilationCache.init 2).putRegExp exRegExpKey
        5).disableScriptAndEval.lookupRegExp exRegExpKey).1 = none) := by
  constructor <;> rfl

/-- C1 (amended): `Disable()` lowers the flag and performs a full
`Clear()` of all four regions — the RegExp generation slots are all
reset to undefined as well — so a subsequent `LookupRegExp` misses on
every pattern, previously Put or not. -/
theorem disable_clears_all_regions (s : CompilationCache) (k : RegExpKey) :
    s.disableScriptAndEval.script_ = none ∧
    s.disableScriptAndEval.eval_global_ = none ∧
    s.disableScriptAndEval.eval_contextual_ = none ∧
    s.disableScriptAndEval.reg_exp_ =
      List.replicate s.reg_exp_.length none ∧
    s.disableScriptAndEval.enabled_script_and_eval_ = false ∧
    (s.disableScriptAndEval.lookupRegExp k).1 = none := by
  refine ⟨rfl, rfl, rfl, ?_, rfl, ?_⟩
  · simp [CompilationCache.disableScriptAndEval, CompilationCache.clear,
      map_none_eq_replicate]
  · simp [CompilationCache.disableScriptAndEval, CompilationCache.clear,
      CompilationCache.lookupRegExp, map_none_eq_replicate,
      regExpProbe_replicate_none]

/-- C8: `HasOrigin` returns a match exactly under the specified
conjunction: an absent request name requires an absent candidate name;
otherwise equal line and column offsets, equal origin-flag bitsets,
both names string-typed and content-equal, and host-defined options of
equal length with corresponding elements strictly equal. -/
theorem hasOrigin_eq_matchesSpec (function_info : SharedFunctionInfo)
    (script_details : ScriptDetails) :
    hasOrigin function_info script_details =
      matchesSpec function_info script_details := by
  unfold hasOrigin matchesSpec
  cases h : script_details.name_obj with
  | none => rfl
  | some name =>
    simp only []
    split_ifs with h1 h2 h3 h4 h5 <;>
      simp_all [bne_iff_ne, beq_iff_eq, Bool.and_eq_true, not_and_or]
    intro _ h6 h7 _ _
    rcases h3 with h3 | h3 <;> simp_all

/-- C10: when the request provenance has no name, `HasOrigin` is decided
solely by whether the candidate script's name is undefined — the
offsets, origin flags, and host-defined options of the candidate are
irrelevant — so any two candidates both lacking a name match the
request as same-origin whatever their other fields. -/
theorem hasOrigin_no_request_name (fi fi' : SharedFunctionInfo)
    (script_details : ScriptDetails)
    (h : script_details.name_obj = none) :
    hasOrigin fi script_details = (fi.script.name == Val.undef) ∧
    (fi.script.name = Val.undef → fi'.script.name = Val.undef →
      hasOrigin fi script_details = true ∧
      hasOrigin fi' script_details = true) := by
  refine ⟨?_, ?_⟩
  · simp [hasOrigin, h]
  · intro h1 h2
    simp [hasOrigin, h, h1, h2]

/-- C10 witness: two no-name candidates with different offsets, flags
and host-defined options both match a no-name request. -/
theorem hasOrigin_no_request_name_witness :
    hasOrigin ⟨1, ⟨Val.undef, 0, 0, 0, []⟩, false, false⟩
        ⟨none, 7, 8, 9, some [4]⟩ = (Val.undef == Val.undef) ∧
    (Val.undef = Val.undef → Val.undef = Val.undef →
      hasOrigin ⟨1, ⟨Val.undef, 0, 0, 0, []⟩, false, false⟩
          ⟨none, 7, 8, 9, some [4]⟩ = true ∧
      hasOrigin ⟨2, ⟨Val.undef, 5, 6, 1, [3]⟩, true, true⟩
          ⟨none, 7, 8, 9, some [4]⟩ = true) :=
  hasOrigin_no_request_name ⟨1, ⟨Val.undef, 0, 0, 0, []⟩, false, false⟩
    ⟨2, ⟨Val.undef, 5, 6, 1, [3]⟩, true, true⟩ ⟨none, 7, 8, 9, some [4]⟩ rfl

/-- C2: the claim as stated is false on the code: `LookupRegExp` calls
`CompilationCacheRegExp::GetTable`, which stores a fresh empty table
into an undefined generation slot, so a Lookup does change which table
a generation slot references — here generation 0 goes from absent to a
present (empty) table. -/
theorem regexp_lookup_allocates_counterexample :
    ((CompilationCache.init 2).reg_exp_.getD 0 none = none) ∧
    (((CompilationCache.init 2).lookupRegExp exRegExpKey).2.reg_exp_.getD 0
        none = some []) := by
  constructor <;> rfl

/-- C2 (amended): Script and Eval table slots are allocated only by a
Put and are never changed by any Lookup on those regions; a RegExp
Lookup, however, allocates an empty table into every undefined
generation slot it probes — from the all-absent state a lookup misses
and leaves every generation referencing a present empty table. -/
theorem table_allocation_discipline (s : CompilationCache) (n : Nat) :
    (∀ src d m, (s.lookupScript src d m).2.script_ = s.script_ ∧
      (s.lookupScript src d m).2.eval_global_ = s.eval_global_ ∧
      (s.lookupScript src d m).2.eval_contextual_ = s.eval_contextual_ ∧
      (s.lookupScript src d m).2.reg_exp_ = s.reg_exp_) ∧
    (∀ src oi c lm p, (s.lookupEval src oi c lm p).2.script_ = s.script_ ∧
      (s.lookupEval src oi c lm p).2.eval_global_ = s.eval_global_ ∧
      (s.lookupEval src oi c lm p).2.eval_contextual_ =
        s.eval_contextual_ ∧
      (s.lookupEval src oi c lm p).2.reg_exp_ = s.reg_exp_) ∧
    (s.reg_exp_ = List.replicate n none →
      ∀ k, (s.lookupRegExp k).1 = none ∧
        (s.lookupRegExp k).2.reg_exp_ = List.replicate n (some [])) := by
  refine ⟨?_, ?_, ?_⟩
  · intro src d m
    simp only [CompilationCache.lookupScript]
    split
    · exact ⟨rfl, rfl, rfl, rfl⟩
    · split <;> exact ⟨rfl, rfl, rfl, rfl⟩
  · intro src oi c lm p
    simp only [CompilationCache.lookupEval]
    split
    · exact ⟨rfl, rfl, rfl, rfl⟩
    · split <;> split <;> exact ⟨rfl, rfl, rfl, rfl⟩
  · intro hrep k
    simp [CompilationCache.lookupRegExp, hrep, regExpProbe_replicate_none]

/-- C2 (amended) witness: from the freshly initialized two-generation
cache, one regexp lookup misses and leaves both generation slots
holding present empty tables. -/
theorem table_allocation_discipline_witness :
    ((CompilationCache.init 2).lookupRegExp exRegExpKey).1 = none ∧
    ((CompilationCache.init 2).lookupRegExp exRegExpKey).2.reg_exp_ =
      List.replicate 2 (some []) :=
  (table_allocation_discipline (CompilationCache.init 2) 2).2.2 rfl
    exRegExpKey

/-- C3: the claim as stated is false on the code: in the disabled
state, `CompilationCache::LookupScript` returns early and increments
neither counter — here a Lookup call leaves hit and miss counters both
unchanged instead of incrementing exactly one. -/
theorem lookup_counter_counterexample :
    (((CompilationCache.init 2).disableScriptAndEval.lookupScript "x"
        ⟨none, 0, 0, 0, none⟩ LanguageMode.sloppy).2.hits =
      (CompilationCache.init 2).disableScriptAndEval.hits) ∧
    (((CompilationCache.init 2).disableScriptAndEval.lookupScript "x"
        ⟨none, 0, 0, 0, none⟩ LanguageMode.sloppy).2.misses =
      (CompilationCache.init 2).disableScriptAndEval.misses) := by
  constructor <;> rfl

/-- C3 (amended): in the enabled state every Lookup on any region
increments exactly one of the hit/miss counters exactly once, and a
RegExp Lookup does so in every state; but a Script or Eval Lookup in
the disabled state returns early and increments neither counter.  No
Put call changes either counter. -/
theorem lookup_counter_discipline (s : CompilationCache) :
    (s.enabled_script_and_eval_ = true →
      (∀ src d m, incrOneCounter s (s.lookupScript src d m).2) ∧
      (∀ src oi c lm p, incrOneCounter s (s.lookupEval src oi c lm p).2)) ∧
    (s.enabled_script_and_eval_ = false →
      (∀ src d m, countersUnchanged s (s.lookupScript src d m).2) ∧
      (∀ src oi c lm p,
        countersUnchanged s (s.lookupEval src oi c lm p).2)) ∧
    (∀ k, incrOneCounter s (s.lookupRegExp k).2) ∧
    (∀ src m fi, countersUnchanged s (s.putScript src m fi)) ∧
    (∀ src oi c fi cell lm p,
      countersUnchanged s (s.putEval src oi c fi cell lm p)) ∧
    (∀ k d, countersUnchanged s (s.putRegExp k d)) := by
  refine ⟨?_, ?_, ?_, ?_, ?_, ?_⟩
  · intro hen
    refine ⟨?_, ?_⟩
    · intro src d m
      simp only [CompilationCache.lookupScript, hen]
      split <;> simp_all [incrOneCounter]
      split <;> simp [incrOneCounter]
    · intro src oi c lm p
      simp only [CompilationCache.lookupEval, hen]
      split <;> simp_all [incrOneCounter]
      split <;> split <;> simp [incrOneCounter]
  · intro hdis
    refine ⟨?_, ?_⟩
    · intro src d m
      simp [CompilationCache.lookupScript, hdis, countersUnchanged]
    · intro src oi c lm p
      simp [CompilationCache.lookupEval, hdis, countersUnchanged]
  · intro k
    simp only [CompilationCache.lookupRegExp]
    split <;> simp [incrOneCounter]
  · intro src m fi
    simp only [CompilationCache.putScript]
    split <;> simp [countersUnchanged]
  · intro src oi c fi cell lm p
    simp only [CompilationCache.putEval]
    split
    · simp [countersUnchanged]
    · split <;> simp [countersUnchanged]
  · intro k d
    simp [CompilationCache.putRegExp, countersUnchanged]

/-- C3 (amended) witness: an enabled script lookup increments exactly
one counter, a disabled one increments neither, a regexp lookup
increments exactly one, and a regexp put changes neither. -/
theorem lookup_counter_discipline_witness :
    incrOneCounter (CompilationCache.init 2)
      ((CompilationCache.init 2).lookupScript "x" exDetailsA
        LanguageMode.sloppy).2 ∧
    countersUnchanged (CompilationCache.init 2).disableScriptAndEval
      ((CompilationCache.init 2).disableScriptAndEval.lookupScript "x"
        exDetailsA LanguageMode.sloppy).2 ∧
    incrOneCounter (CompilationCache.init 2)
      ((CompilationCache.init 2).lookupRegExp exRegExpKey).2 ∧
    countersUnchanged (CompilationCache.init 2)
      ((CompilationCache.init 2).putRegExp exRegExpKey 5) :=
  ⟨((lookup_counter_discipline (CompilationCache.init 2)).1 rfl).1 "x"
      exDetailsA LanguageMode.sloppy,
   ((lookup_counter_discipline
        (CompilationCache.init 2).disableScriptAndEval).2.1 rfl).1 "x"
      exDetailsA LanguageMode.sloppy,
   (lookup_counter_discipline (CompilationCache.init 2)).2.2.1 exRegExpKey,
   (lookup_counter_discipline (CompilationCache.init 2)).2.2.2.2.2
      exRegExpKey 5⟩

/-- C9: in the disabled state `LookupScript` and `LookupEval` return an
absent result with the whole cache state untouched, and `PutScript` and
`PutEval` are no-ops; `LookupRegExp` and `PutRegExp` never read the
flag: on any state they produce the same result and the same state
(apart from the flag value itself) whether the flag is true or false. -/
theorem disabled_cache_behavior (s : CompilationCache)
    (hdis : s.enabled_script_and_eval_ = false) :
    (∀ src d m, s.lookupScript src d m = (none, s)) ∧
    (∀ src oi c lm p, s.lookupEval src oi c lm p = (none, s)) ∧
    (∀ src m fi, s.putScript src m fi = s) ∧
    (∀ src oi c fi cell lm p, s.putEval src oi c fi cell lm p = s) ∧
    (∀ (s' : CompilationCache) (b : Bool) (k : RegExpKey),
      ({s' with enabled_script_and_eval_ := b}.lookupRegExp k).1 =
        (s'.lookupRegExp k).1 ∧
      ({s' with enabled_script_and_eval_ := b}.lookupRegExp k).2 =
        {(s'.lookupRegExp k).2 with enabled_script_and_eval_ := b}) ∧
    (∀ (s' : CompilationCache) (b : Bool) (k : RegExpKey) (d : Nat),
      ({s' with enabled_script_and_eval_ := b}.putRegExp k d =
        {s'.putRegExp k d with enabled_script_and_eval_ := b})) := by
  refine ⟨?_, ?_, ?_, ?_, ?_, ?_⟩
  · intro src d m
    simp [CompilationCache.lookupScript, hdis]
  · intro src oi c lm p
    simp [CompilationCache.lookupEval, hdis]
  · intro src m fi
    simp [CompilationCache.putScript, hdis]
  · intro src oi c fi cell lm p
    simp [CompilationCache.putEval, hdis]
  · intro s' b k
    simp only [CompilationCache.lookupRegExp]
    cases hp : (regExpProbe s'.reg_exp_ k).2 with
    | none => exact ⟨rfl, rfl⟩
    | some gd => exact ⟨rfl, rfl⟩
  · intro s' b k d
    rfl

/-- C9 witness: the disabled behaviors at a concrete disabled state,
and flag-independence of the regexp operations at a concrete state. -/
theorem disabled_cache_behavior_witness :
    ((CompilationCache.init 2).disableScriptAndEval.lookupScript "x"
        exDetailsA LanguageMode.sloppy =
      (none, (CompilationCache.init 2).disableScriptAndEval)) ∧
    ({(CompilationCache.init 2) with
        enabled_script_and_eval_ := false}.putRegExp exRegExpKey 5 =
      {(CompilationCache.init 2).putRegExp exRegExpKey 5 with
        enabled_script_and_eval_ := false}) :=
  ⟨(disabled_cache_behavior (CompilationCache.init 2).disableScriptAndEval
        rfl).1 "x" exDetailsA LanguageMode.sloppy,
   (disabled_cache_behavior (CompilationCache.init 2).disableScriptAndEval
        rfl).2.2.2.2.2 (CompilationCache.init 2) false exRegExpKey 5⟩

/-- C4: after a Put for script A, a script Lookup with the same source
text and language mode but the provenance of a different script B
(origin check fails) misses — the miss counter is incremented, the hit
counter and the cached table are untouched — while a Lookup with A's
provenance (origin check passes) returns the artifact and increments
the hit counter. -/
theorem script_origin_disambiguation (s : CompilationCache)
    (source : String) (language_mode : LanguageMode)
    (function_info : SharedFunctionInfo) (dA dB : ScriptDetails)
    (hen : s.enabled_script_and_eval_ = true)
    (hA : hasOrigin function_info dA = true)
    (hB : hasOrigin function_info dB = false) :
    (((s.putScript source language_mode function_info).lookupScript source
        dB language_mode).1 = none ∧
     ((s.putScript source language_mode function_info).lookupScript source
        dB language_mode).2.misses =
       (s.putScript source language_mode function_info).misses + 1 ∧
     ((s.putScript source language_mode function_info).lookupScript source
        dB language_mode).2.hits =
       (s.putScript source language_mode function_info).hits ∧
     ((s.putScript source language_mode function_info).lookupScript source
        dB language_mode).2.script_ =
       (s.putScript source language_mode function_info).script_) ∧
    (((s.putScript source language_mode function_info).lookupScript source
        dA language_mode).1 = some function_info ∧
     ((s.putScript source language_mode function_info).lookupScript source
        dA language_mode).2.hits =
       (s.putScript source language_mode function_info).hits + 1 ∧
     ((s.putScript source language_mode function_info).lookupScript source
        dA language_mode).2.misses =
       (s.putScript source language_mode function_info).misses) := by
  have hput : s.putScript source language_mode function_info =
      { s with script_ := some (tblInsert (s.script_.getD [])
          (source, language_mode) function_info) } := by
    simp [CompilationCache.putScript, hen]
  rw [hput]
  refine ⟨⟨?_, ?_, ?_, ?_⟩, ⟨?_, ?_, ?_⟩⟩ <;>
    simp [CompilationCache.lookupScript, CompilationCache.scriptRegionLookup,
      hen, tblLookup_tblInsert_self, hA, hB]

/-- C4 witness: with the artifact of script "a.js" cached under source
"src", a lookup with the provenance of "b.js" misses and a lookup with
the provenance of "a.js" returns the artifact. -/
theorem script_origin_disambiguation_witness :
    (((CompilationCache.init 2).putScript "src" LanguageMode.sloppy
        exInfoA).lookupScript "src" exDetailsB LanguageMode.sloppy).1 =
      none ∧
    (((CompilationCache.init 2).putScript "src" LanguageMode.sloppy
        exInfoA).lookupScript "src" exDetailsA LanguageMode.sloppy).1 =
      some exInfoA :=
  ⟨(script_origin_disambiguation (CompilationCache.init 2) "src"
      LanguageMode.sloppy exInfoA exDetailsA exDetailsB rfl (by decide)
      (by decide)).1.1,
   (script_origin_disambiguation (CompilationCache.init 2) "src"
      LanguageMode.sloppy exInfoA exDetailsA exDetailsB rfl (by decide)
      (by decide)).2.1⟩

theorem regExpProbe_miss (tables : List (Option RegExpTable))
    (k : RegExpKey)
    (h : ∀ t ∈ tables, tblLookup (t.getD []) k = none) :
    (regExpProbe tables k).2 = none := by
  induction tables with
  | nil => rfl
  | cons t rest ih =>
    have h0 := h t (List.mem_cons_self t rest)
    simp [regExpProbe, h0,
      ih (fun t' ht' => h t' (List.mem_cons_of_mem _ ht'))]

theorem regExpProbe_first (tables : List (Option RegExpTable))
    (k : RegExpKey) (g : Nat) (d : Nat)
    (hg : tblLookup ((tables.getD g none).getD []) k = some d)
    (hbefore : ∀ j, j < g →
      tblLookup ((tables.getD j none).getD []) k = none)
    (hlt : g < tables.length) :
    (regExpProbe tables k).2 = some (g, d) ∧
    (regExpProbe tables k).1.getD g none =
      some ((tables.getD g none).getD []) := by
  induction tables generalizing g with
  | nil => simp at hlt
  | cons t rest ih =>
    cases g with
    | zero =>
      simp only [List.getD_cons_zero] at hg
      simp [regExpProbe, hg]
    | succ m =>
      have h0 : tblLookup (t.getD []) k = none := by
        simpa using hbefore 0 (Nat.succ_pos m)
      have hrest := ih m (by simpa using hg)
        (fun j hj => by simpa using hbefore (j + 1) (Nat.succ_lt_succ hj))
        (by simpa using hlt)
      refine ⟨?_, ?_⟩
      · simp [regExpProbe, h0, hrest.1]
      · simp only [regExpProbe, h0]
        simpa using hrest.2

theorem regExpPutTables_getD_succ (tables : List (Option RegExpTable))
    (k : RegExpKey) (d : Nat) (j : Nat) :
    (regExpPutTables tables k d).getD (j + 1) none =
      tables.getD (j + 1) none := by
  cases tables <;> simp [regExpPutTables]

theorem regExpPutTables_lookup_zero (tables : List (Option RegExpTable))
    (k : RegExpKey) (d : Nat) (h : tables ≠ []) :
    tblLookup (((regExpPutTables tables k d).getD 0 none).getD []) k =
      some d := by
  cases tables with
  | nil => exact absurd rfl h
  | cons t rest => simp [regExpPutTables, tblLookup_tblInsert_self]

/-- C5: a RegExp Lookup probes the generations in order and stops at
the first one holding the key: if generation g is the first holder, the
found data is returned and the hit counter incremented, and when g > 0
the data is additionally Put into generation 0 while generation g still
holds it; when no generation holds the key the lookup misses and the
miss counter is incremented exactly once. -/
theorem regexp_lookup_generations (s : CompilationCache) (k : RegExpKey) :
    ((∀ t ∈ s.reg_exp_, tblLookup (t.getD []) k = none) →
      (s.lookupRegExp k).1 = none ∧
      (s.lookupRegExp k).2.misses = s.misses + 1 ∧
      (s.lookupRegExp k).2.hits = s.hits) ∧
    (∀ g d, g < s.reg_exp_.length →
      tblLookup ((s.reg_exp_.getD g none).getD []) k = some d →
      (∀ j, j < g →
        tblLookup ((s.reg_exp_.getD j none).getD []) k = none) →
      (s.lookupRegExp k).1 = some d ∧
      (s.lookupRegExp k).2.hits = s.hits + 1 ∧
      (s.lookupRegExp k).2.misses = s.misses ∧
      (0 < g →
        tblLookup (((s.lookupRegExp k).2.reg_exp_.getD 0 none).getD [])
          k = some d ∧
        tblLookup (((s.lookupRegExp k).2.reg_exp_.getD g none).getD [])
          k = some d)) := by
  constructor
  · intro h
    simp [CompilationCache.lookupRegExp, regExpProbe_miss s.reg_exp_ k h]
  · intro g d hlt hg hbefore
    obtain ⟨h1, h2⟩ := regExpProbe_first s.reg_exp_ k g d hg hbefore hlt
    refine ⟨?_, ?_, ?_, ?_⟩
    · simp [CompilationCache.lookupRegExp, h1]
    · simp [CompilationCache.lookupRegExp, h1]
    · simp [CompilationCache.lookupRegExp, h1]
    · intro hpos
      cases g with
      | zero => omega
      | succ m =>
        have hne : (regExpProbe s.reg_exp_ k).1 ≠ [] := by
          intro hnil
          have hlen := regExpProbe_length s.reg_exp_ k
          rw [hnil] at hlen
          simp at hlen
          omega
        have hre : (s.lookupRegExp k).2.reg_exp_ =
            regExpPutTables (regExpProbe s.reg_exp_ k).1 k d := by
          simp [CompilationCache.lookupRegExp, h1]
        constructor
        · rw [hre]
          exact regExpPutTables_lookup_zero _ k d hne
        · rw [hre, regExpPutTables_getD_succ, h2, Option.getD_some]
          exact hg

/-- C5 witness: in a two-generation cache whose generation 1 (and only
generation 1) holds the key with data 7, the lookup returns 7 and
promotes the data into generation 0. -/
theorem regexp_lookup_generations_witness :
    (exRegExpCache.lookupRegExp exRegExpKey).1 = some 7 ∧
    tblLookup (((exRegExpCache.lookupRegExp exRegExpKey).2.reg_exp_.getD 0
        none).getD []) exRegExpKey = some 7 ∧
    tblLookup (((exRegExpCache.lookupRegExp exRegExpKey).2.reg_exp_.getD 1
        none).getD []) exRegExpKey = some 7 ∧
    ((CompilationCache.init 2).lookupRegExp exRegExpKey).1 = none :=
  ⟨((regexp_lookup_generations exRegExpCache exRegExpKey).2 1 7 (by decide)
      (by decide)
      (by intro j hj; have hj0 : j = 0 := Nat.lt_one_iff.mp hj
          subst hj0; decide)).1,
   (((regexp_lookup_generations exRegExpCache exRegExpKey).2 1 7 (by decide)
      (by decide)
      (by intro j hj; have hj0 : j = 0 := Nat.lt_one_iff.mp hj
          subst hj0; decide)).2.2.2 (by omega)).1,
   (((regexp_lookup_generations exRegExpCache exRegExpKey).2 1 7 (by decide)
      (by decide)
      (by intro j hj; have hj0 : j = 0 := Nat.lt_one_iff.mp hj
          subst hj0; decide)).2.2.2 (by omega)).2,
   ((regexp_lookup_generations (CompilationCache.init 2) exRegExpKey).1
      (by intro t ht
          have ht0 : t = none := by
            simpa [CompilationCache.init] using ht
          subst ht0; rfl)).1⟩

theorem getD_dropLast (l : List (Option RegExpTable)) (i : Nat)
    (h : i + 1 < l.length) :
    l.dropLast.getD i none = l.getD i none := by
  induction l generalizing i with
  | nil => simp at h
  | cons a rest ih =>
    cases rest with
    | nil => simp at h
    | cons b t =>
      cases i with
      | zero => rfl
      | succ m =>
        have hm := ih m (by simpa using h)
        simpa using hm

/-- C6: `CompilationCacheRegExp::Age` shifts every generation's table
reference into the next-older slot and sets generation 0 to absent,
dropping the old oldest generation's table unconditionally — whatever
its entries were; consequently with two generations, an entry Put into
generation 0 and then aged twice with no intervening operation on it is
found in no generation: both slots are absent and a lookup misses. -/
theorem regexp_age_rotation (ts : List (Option RegExpTable))
    (s : CompilationCache) (k : RegExpKey) (d : Nat) :
    ((regExpAgeTables ts).length = ts.length ∧
     (ts ≠ [] → (regExpAgeTables ts).getD 0 none = none) ∧
     (∀ i, i + 1 < ts.length →
       (regExpAgeTables ts).getD (i + 1) none = ts.getD i none)) ∧
    (s.reg_exp_.length = 2 →
      ((((s.putRegExp k d).regExpAge.regExpAge).lookupRegExp k).1 = none ∧
       ∀ t ∈ ((s.putRegExp k d).regExpAge.regExpAge).reg_exp_,
         t = none)) := by
  constructor
  · refine ⟨?_, ?_, ?_⟩
    · cases ts with
      | nil => rfl
      | cons a rest => simp [regExpAgeTables]
    · intro hne
      cases ts with
      | nil => exact absurd rfl hne
      | cons a rest => rfl
    · intro i hi
      cases ts with
      | nil => simp at hi
      | cons a rest =>
        have : ((a :: rest).dropLast).getD i none =
            (a :: rest).getD i none := getD_dropLast _ i hi
        simpa [regExpAgeTables] using this
  · intro hlen
    obtain ⟨a, b, hab⟩ := List.length_eq_two.mp hlen
    constructor
    · simp [CompilationCache.putRegExp, CompilationCache.regExpAge,
        CompilationCache.lookupRegExp, hab, regExpPutTables,
        regExpAgeTables, regExpProbe, tblLookup]
    · intro t ht
      simp [CompilationCache.putRegExp, CompilationCache.regExpAge,
        hab, regExpPutTables, regExpAgeTables] at ht
      exact ht

/-- C6 witness: a concrete two-generation cache — Put a pattern, age
twice, and the pattern hits nowhere; both generation slots are
absent. -/
theorem regexp_age_rotation_witness :
    (regExpAgeTables [some [(exRegExpKey, 5)], none]).getD 0 none = none ∧
    (regExpAgeTables [some [(exRegExpKey, 5)], none]).getD 1 none =
      [some [(exRegExpKey, 5)], none].getD 0 none ∧
    ((((CompilationCache.init 2).putRegExp exRegExpKey
        5).regExpAge.regExpAge).lookupRegExp exRegExpKey).1 = none ∧
    ∀ t ∈ (((CompilationCache.init 2).putRegExp exRegExpKey
        5).regExpAge.regExpAge).reg_exp_, t = none :=
  ⟨(regexp_age_rotation [some [(exRegExpKey, 5)], none]
      (CompilationCache.init 2) exRegExpKey 5).1.2.1 (by decide),
   (regexp_age_rotation [some [(exRegExpKey, 5)], none]
      (CompilationCache.init 2) exRegExpKey 5).1.2.2 0 (by decide),
   ((regexp_age_rotation [some [(exRegExpKey, 5)], none]
      (CompilationCache.init 2) exRegExpKey 5).2 rfl).1,
   ((regexp_age_rotation [some [(exRegExpKey, 5)], none]
      (CompilationCache.init 2) exRegExpKey 5).2 rfl).2⟩

theorem hSentinels_evalAge (t : EvalTable) (h : Nat) :
    hSentinels (evalAgeTable t) h =
      (hSentinels t h).filterMap
        (fun c => if c - 1 = 0 then none else some (c - 1)) := by
  induction t with
  | nil => rfl
  | cons e rest ih =>
    cases e with
    | sentinel h' v =>
      simp only [hSentinels, evalAgeTable] at ih ⊢
      by_cases hh : h' = h
      · by_cases hv : v - 1 = 0 <;>
          simp [evalAgeEntry, List.filterMap_cons, hh, hv, ih]
      · by_cases hv : v - 1 = 0 <;>
          simp [evalAgeEntry, List.filterMap_cons, hh, hv, ih]
    | entry k info cell =>
      simp only [hSentinels, evalAgeTable] at ih ⊢
      by_cases hst : isStale info <;>
        simp [evalAgeEntry, List.filterMap_cons, hst, ih]

theorem sentinel_iterate (t : EvalTable) (h : Nat) (K : Nat)
    (hs : hSentinels t h = [(K : Int)]) :
    ∀ j, j ≤ K - 1 →
      hSentinels (evalAgeTable^[j] t) h = [((K - j : Nat) : Int)] := by
  intro j
  induction j with
  | zero =>
    intro _
    simpa using hs
  | succ m ih =>
    intro hj
    have hm := ih (by omega)
    rw [Function.iterate_succ_apply', hSentinels_evalAge, hm]
    have hcond : ¬(((K - m : Nat) : Int) - 1 = 0) := by omega
    simp only [List.filterMap_cons, List.filterMap_nil, hcond, if_false]
    have : ((K - m : Nat) : Int) - 1 = ((K - (m + 1) : Nat) : Int) := by
      omega
    rw [this]

/-- C7: the eval-region ageing step decrements the sentinel's stored
countdown, removing the entry when the decremented count reaches zero
and writing the decremented value back otherwise; so a sentinel seeded
with K ≥ 1 is, after each of the first K-1 Age passes, still present
with count K - j, and the K-th pass removes it. -/
theorem eval_age_sentinel_countdown (t : EvalTable) (h : Nat) (K : Nat)
    (hK : 1 ≤ K) (hs : hSentinels t h = [(K : Int)]) :
    (∀ (u : EvalTable) (c : Int), hSentinels u h = [c] →
      hSentinels (evalAgeTable u) h =
        if c - 1 = 0 then [] else [c - 1]) ∧
    (∀ j, 1 ≤ j → j ≤ K - 1 →
      hSentinels (evalAgeTable^[j] t) h = [((K - j : Nat) : Int)]) ∧
    hSentinels (evalAgeTable^[K] t) h = [] := by
  refine ⟨?_, ?_, ?_⟩
  · intro u c hu
    rw [hSentinels_evalAge, hu]
    by_cases hc : c - 1 = 0 <;> simp [hc]
  · intro j _ hj
    exact sentinel_iterate t h K hs j hj
  · have hlast := sentinel_iterate t h K hs (K - 1) (Nat.le_refl _)
    have hK1 : K = (K - 1) + 1 := by omega
    rw [hK1, Function.iterate_succ_apply', hSentinels_evalAge, hlast]
    have hone : ((K - (K - 1) : Nat) : Int) = 1 := by omega
    rw [hone]
    rfl

/-- C7 witness: a sentinel seeded at 3 is present with counts 2 and 1
after the first and second Age passes and removed by the third. -/
theorem eval_age_sentinel_countdown_witness :
    hSentinels (evalAgeTable^[1] [EvalEntry.sentinel 5 3]) 5 =
      [((3 - 1 : Nat) : Int)] ∧
    hSentinels (evalAgeTable^[2] [EvalEntry.sentinel 5 3]) 5 =
      [((3 - 2 : Nat) : Int)] ∧
    hSentinels (evalAgeTable^[3] [EvalEntry.sentinel 5 3]) 5 = [] :=
  ⟨(eval_age_sentinel_countdown [EvalEntry.sentinel 5 3] 5 3 (by decide)
      (by decide)).2.1 1 (by decide) (by decide),
   (eval_age_sentinel_countdown [EvalEntry.sentinel 5 3] 5 3 (by decide)
      (by decide)).2.1 2 (by decide) (by decide),
   (eval_age_sentinel_countdown [EvalEntry.sentinel 5 3] 5 3 (by decide)
      (by decide)).2.2⟩
